import Mathlib

/-!
Shallow embedding of the Express push-notification service (`src/app.js`).

The service keeps, per user, a MongoDB document `{ userId, fcmTokens }`
where `fcmTokens` is a list of `{ token, device, lastUsed }` subdocuments
(`userId` is declared `unique: true` in the schema).  Three route handlers
are modelled:

* `POST /register-token`       — `registerToken`
* `POST /send-notification`    — `sendNotification`
* `POST /send-bulk-notification` — `sendBulkNotification`

The Firebase gateway and the prune-write results are modelled by an
environment `GatewayEnv` assigning each token its send outcome and
whether a token-removal store write for it would succeed.  Each dispatch
function returns, besides the HTTP response, the trace of gateway send
calls and of token-removal store writes it issues.
-/

/-- One element of the `fcmTokens` array:
`{ token: String, device: String, lastUsed: Date }`.
`lastUsed` is modelled as a natural-number timestamp. -/
structure TokenInfo where
  token : String
  device : Option String
  lastUsed : Nat
deriving Repr, DecidableEq

/-- One MongoDB `UserToken` document: `{ userId (unique), fcmTokens }`. -/
structure UserTokenDoc where
  userId : String
  fcmTokens : List TokenInfo
deriving Repr, DecidableEq

/-- The `UserToken` collection: a list of documents.  The schema declares
`userId` unique, so well-formed stores have pairwise distinct `userId`s. -/
abbrev Store := List UserTokenDoc

/-- Result of one `admin.messaging().send(message)` call: fulfilled, or
rejected with an `error.code` string. -/
inductive SendResult where
  | ok
  | err (code : String)
deriving Repr, DecidableEq

/-- External collaborators for one dispatch call: the gateway outcome for
each token, and whether the token-removal store write for a token would
succeed (`pruneOk t = false` models the store being down during the prune
of `t`). -/
structure GatewayEnv where
  send : String → SendResult
  pruneOk : String → Bool

/-- The error-code test in both catch blocks of `src/app.js`
(lines 110 and 174): exactly these two codes trigger token removal. -/
def isPermanentInvalid (code : String) : Bool :=
  code == "messaging/invalid-registration-token" ||
  code == "messaging/registration-token-not-registered"

/-- Whether the send of token `t` fails with one of the two
permanently-invalid-token error codes. -/
def isPermMsg (env : GatewayEnv) (t : String) : Bool :=
  match env.send t with
  | .ok => false
  | .err c => isPermanentInvalid c

/-- HTTP response of a dispatch handler, abstracted to its JSON content:
404 "No tokens found", 200 with the number of successful sends and the
`failed` count, or 500. -/
inductive Response where
  | notFound
  | success (sent : Nat) (failedCount : Nat)
  | serverError
deriving Repr, DecidableEq

/-- `UserToken.findOne({ userId })`. -/
def findOne (store : Store) (uid : String) : Option UserTokenDoc :=
  store.find? (fun d => d.userId == uid)

/-- `UserToken.find({ userId: { $in: userIds } })`: every document whose
`userId` is a member of `userIds`, each document at most once, in
collection order. -/
def findMany (store : Store) (userIds : List String) : List UserTokenDoc :=
  store.filter (fun d => userIds.contains d.userId)

/-- `POST /register-token`: `findOneAndUpdate({userId}, { $addToSet:
{ fcmTokens: { token, device, lastUsed: new Date() } } }, { upsert: true })`.
MongoDB's `$addToSet` appends the element unless an element equal to the
whole subdocument `{token, device, lastUsed}` is already present. -/
def registerToken (store : Store) (uid fcmToken : String)
    (deviceInfo : Option String) (now : Nat) : Store :=
  if store.any (fun d => d.userId == uid) then
    store.map (fun d =>
      if d.userId == uid then
        { d with fcmTokens :=
            if (⟨fcmToken, deviceInfo, now⟩ : TokenInfo) ∈ d.fcmTokens then
              d.fcmTokens
            else
              d.fcmTokens ++ [⟨fcmToken, deviceInfo, now⟩] }
      else d)
  else
    store ++ [⟨uid, [⟨fcmToken, deviceInfo, now⟩]⟩]

/-- Outcome of one dispatch handler call: the response sent, the tokens
handed to `admin.messaging().send` (one entry per send call, in envelope
order), and the tokens for which a removal store write was issued. -/
structure DispatchResult where
  response : Response
  gatewaySends : List String
  pruneCalls : List String
deriving Repr, DecidableEq

/-- The message list of the single-user handler:
`userTokens.fcmTokens.map(tokenInfo => ({ …, token: tokenInfo.token }))`,
keeping only the token (the envelope parts `title`/`body`/`data` are the
same constant in every envelope). -/
def userMessages (doc : UserTokenDoc) : List String :=
  doc.fcmTokens.map (fun ti => ti.token)

/-- The tokens of `messages` whose send fails with a permanently-invalid
code: exactly those for which a removal store write is issued. -/
def prunedOf (env : GatewayEnv) (messages : List String) : List String :=
  messages.filter (fun t => isPermMsg env t)

/-- `successfulSends.length`: the number of fulfilled sends among
`messages` (every rejected send maps to `null`). -/
def deliveredCount (env : GatewayEnv) (messages : List String) : Nat :=
  messages.countP (fun t => env.send t == .ok)

/-- `POST /send-notification`.  Looks up the user's document; 404 when it
is absent or its `fcmTokens` is empty.  Otherwise one envelope per token
is sent (`Promise.all`); a send rejecting with a permanently-invalid code
triggers an awaited `updateOne` pull of that token — if that prune write
itself fails, the rejection escapes the catch block, `Promise.all`
rejects, and the outer catch answers 500.  Otherwise the response is 200
with `successfulSends.length` and `messages.length - successfulSends.length`. -/
def sendNotification (store : Store) (env : GatewayEnv) (uid : String) :
    DispatchResult :=
  match findOne store uid with
  | none => ⟨.notFound, [], []⟩
  | some doc =>
    if doc.fcmTokens.length == 0 then ⟨.notFound, [], []⟩
    else if (prunedOf env (userMessages doc)).any (fun t => !(env.pruneOk t)) then
      ⟨.serverError, userMessages doc, prunedOf env (userMessages doc)⟩
    else
      ⟨.success (deliveredCount env (userMessages doc))
          ((userMessages doc).length - deliveredCount env (userMessages doc)),
        userMessages doc, prunedOf env (userMessages doc)⟩

/-- The flattened envelope list of the bulk handler, keeping the owning
user: `userTokens.flatMap(user => user.fcmTokens.map(tokenInfo => …))`,
one `(userId, token)` pair per produced envelope.  The handler's message
list is the second projection of this list. -/
def resolvedPairs (store : Store) (userIds : List String) :
    List (String × String) :=
  ((findMany store userIds).map
    (fun d => d.fcmTokens.map (fun ti => (d.userId, ti.token)))).flatten

/-- The batching loop `for (let i = 0; i < messages.length; i += batchSize)
{ … messages.slice(i, i + batchSize) … }`, with fuel (the loop would not
terminate for `size = 0`; every claim assumes `size ≥ 1`, and then
`xs.length` fuel suffices). -/
def batchAux (size : Nat) : Nat → List α → List (List α)
  | 0, _ => []
  | _, [] => []
  | fuel + 1, x :: xs => (x :: xs).take size :: batchAux size fuel ((x :: xs).drop size)

/-- The groups produced by the bulk handler's slicing loop. -/
def batch (size : Nat) (xs : List α) : List (List α) :=
  batchAux size xs.length xs

/-- One pass of the bulk loop over the already-sliced batches: returns
(in order) the concatenated per-send results (`true` = fulfilled), the
tokens handed to the gateway, and the tokens whose failure code was
permanently invalid, for which `updateMany({}, {$pull: …}).exec()` is
fired without being awaited. -/
def bulkLoop (env : GatewayEnv) : List (List String) →
    List Bool × List String × List String
  | [] => ([], [], [])
  | b :: rest =>
    let resp := b.map (fun t => match env.send t with
      | .ok => true
      | .err _ => false)
    let prunes := b.filter (fun t => isPermMsg env t)
    let r := bulkLoop env rest
    (resp ++ r.1, b ++ r.2.1, prunes ++ r.2.2)

/-- Outcome of one bulk-dispatch call; `manyLookups` counts the
`UserToken.find({userId: {$in: …}})` store calls issued. -/
structure BulkResult where
  response : Response
  manyLookups : Nat
  gatewaySends : List String
  pruneCalls : List String
deriving Repr, DecidableEq

/-- The bulk handler's flat message list (tokens of all matched
documents, in document order). -/
def bulkMessages (store : Store) (userIds : List String) : List String :=
  (resolvedPairs store userIds).map (fun p => p.2)

/-- `successfulSends.length` of the bulk handler: fulfilled results
accumulated over all batches. -/
def bulkDelivered (env : GatewayEnv) (messages : List String) : Nat :=
  ((bulkLoop env (batch 500 messages)).1.filter (fun b => b)).length

/-- `POST /send-bulk-notification`.  Issues the many-user lookup first,
answers 404 when it matches no document, otherwise flattens one envelope
per (document, token), slices into batches of 500, awaits each batch's
`Promise.all` in turn (every rejection is converted to `null` by the
per-send `.catch`, firing the unawaited prune for permanently-invalid
codes), and answers 200 with the fulfilled count and
`messages.length - successfulSends.length`. -/
def sendBulkNotification (store : Store) (env : GatewayEnv)
    (userIds : List String) : BulkResult :=
  if (findMany store userIds).length == 0 then ⟨.notFound, 1, [], []⟩
  else
    ⟨.success (bulkDelivered env (bulkMessages store userIds))
        ((bulkMessages store userIds).length -
          bulkDelivered env (bulkMessages store userIds)),
      1,
      (bulkLoop env (batch 500 (bulkMessages store userIds))).2.1,
      (bulkLoop env (batch 500 (bulkMessages store userIds))).2.2⟩

/-! ## Lemmas about the batching loop -/

theorem batchAux_nil (size fuel : Nat) : batchAux size fuel ([] : List α) = [] := by
  cases fuel <;> rfl

theorem batchAux_flatten (size : Nat) (hS : 1 ≤ size) :
    ∀ (fuel : Nat) (xs : List α), xs.length ≤ fuel →
      (batchAux size fuel xs).flatten = xs := by
  intro fuel
  induction fuel with
  | zero =>
    intro xs h
    have : xs = [] := List.length_eq_zero.mp (Nat.le_zero.mp h)
    subst this
    rfl
  | succ n ih =>
    intro xs h
    match xs with
    | [] => rfl
    | x :: l =>
      rw [batchAux, List.flatten_cons, ih ((x :: l).drop size) (by
        rw [List.length_drop]
        simp only [List.length_cons] at h ⊢
        omega)]
      exact List.take_append_drop size (x :: l)

theorem batchAux_length (size : Nat) (hS : 1 ≤ size) :
    ∀ (fuel : Nat) (xs : List α), xs.length ≤ fuel →
      (batchAux size fuel xs).length = (xs.length + size - 1) / size := by
  intro fuel
  induction fuel with
  | zero =>
    intro xs h
    have : xs = [] := List.length_eq_zero.mp (Nat.le_zero.mp h)
    subst this
    show 0 = (0 + size - 1) / size
    rw [Nat.zero_add, Nat.div_eq_of_lt (by omega)]
  | succ n ih =>
    intro xs h
    match xs with
    | [] =>
      show 0 = (0 + size - 1) / size
      rw [Nat.zero_add, Nat.div_eq_of_lt (by omega)]
    | x :: l =>
      rw [batchAux, List.length_cons,
        ih ((x :: l).drop size) (by
          rw [List.length_drop]
          simp only [List.length_cons] at h ⊢
          omega)]
      rw [List.length_drop]
      rcases Nat.le_total (x :: l).length size with hle | hge
      · have h1 : (x :: l).length - size = 0 := by omega
        rw [h1]
        have h2 : (0 + size - 1) / size = 0 := Nat.div_eq_of_lt (by omega)
        have h3 : ((x :: l).length + size - 1) / size = 1 := by
          rw [show (x :: l).length + size - 1 = ((x :: l).length - 1) + size by
              simp only [List.length_cons]; omega,
            Nat.add_div_right _ (by omega : 0 < size),
            Nat.div_eq_of_lt (by simp only [List.length_cons] at hle ⊢; omega)]
        rw [h2, h3]
      · have h1 : (x :: l).length - size + size - 1 = (x :: l).length - 1 := by
          omega
        have h2 : (x :: l).length + size - 1 = ((x :: l).length - 1) + size := by
          simp only [List.length_cons]; omega
        rw [h1, h2, Nat.add_div_right _ (by omega : 0 < size)]

theorem batchAux_group_le (size : Nat) :
    ∀ (fuel : Nat) (xs : List α) (g : List α),
      g ∈ batchAux size fuel xs → g.length ≤ size := by
  intro fuel
  induction fuel with
  | zero => intro xs g hg; simp [batchAux] at hg
  | succ n ih =>
    intro xs g hg
    match xs with
    | [] => simp [batchAux] at hg
    | x :: l =>
      rw [batchAux] at hg
      rcases List.mem_cons.mp hg with h | h
      · subst h
        simp
      · exact ih _ _ h

theorem batchAux_full_groups (size : Nat) :
    ∀ (fuel : Nat) (xs : List α) (i : Nat),
      i + 1 < (batchAux size fuel xs).length →
      ((batchAux size fuel xs).getD i []).length = size := by
  intro fuel
  induction fuel with
  | zero => intro xs i hi; simp [batchAux] at hi
  | succ n ih =>
    intro xs i hi
    match xs with
    | [] => simp [batchAux] at hi
    | x :: l =>
      rw [batchAux] at hi ⊢
      match i with
      | 0 =>
        simp only [List.length_cons] at hi
        have hrec : batchAux size n ((x :: l).drop size) ≠ [] := by
          intro hnil
          rw [hnil] at hi
          simp at hi
        have hdrop : (x :: l).drop size ≠ [] := by
          intro hnil
          rw [hnil, batchAux_nil] at hrec
          exact hrec rfl
        have : size < (x :: l).length := by
          by_contra hc
          exact hdrop (List.drop_eq_nil_of_le (by omega))
        simp only [List.getD_cons_zero, List.length_take]
        omega
      | i + 1 =>
        simp only [List.length_cons] at hi
        simpa using ih ((x :: l).drop size) i (by omega)

theorem batch_flatten (size : Nat) (hS : 1 ≤ size) (xs : List α) :
    (batch size xs).flatten = xs :=
  batchAux_flatten size hS xs.length xs (Nat.le_refl _)

/-! ## Lemmas about the bulk send loop -/

theorem bulkLoop_sends (env : GatewayEnv) :
    ∀ bs : List (List String), (bulkLoop env bs).2.1 = bs.flatten := by
  intro bs
  induction bs with
  | nil => rfl
  | cons b rest ih => simp [bulkLoop, ih]

theorem bulkLoop_results_length (env : GatewayEnv) :
    ∀ bs : List (List String), (bulkLoop env bs).1.length = bs.flatten.length := by
  intro bs
  induction bs with
  | nil => rfl
  | cons b rest ih => simp [bulkLoop, ih]

theorem bulkLoop_prunes_perm (env : GatewayEnv) :
    ∀ (bs : List (List String)) (t : String),
      t ∈ (bulkLoop env bs).2.2 → isPermMsg env t = true := by
  intro bs
  induction bs with
  | nil => intro t ht; simp [bulkLoop] at ht
  | cons b rest ih =>
    intro t ht
    simp only [bulkLoop, List.mem_append] at ht
    rcases ht with h | h
    · exact (List.mem_filter.mp h).2
    · exact ih t h

/-! ## C5: batch partition correctness -/

/-- C5: for every input sequence of `N` envelopes and batch size `S ≥ 1`,
the bulk dispatch batching loop produces `⌈N/S⌉ = (N + S - 1) / S`
groups, each of length at most `S`, all of length exactly `S` except
possibly the last, and the concatenation of the groups in order equals
the original sequence. -/
theorem c5_batch_partition {α : Type} (size : Nat) (xs : List α) (hS : 1 ≤ size) :
    (batch size xs).length = (xs.length + size - 1) / size ∧
    (∀ g ∈ batch size xs, g.length ≤ size) ∧
    (∀ i, i + 1 < (batch size xs).length →
      ((batch size xs).getD i []).length = size) ∧
    (batch size xs).flatten = xs :=
  ⟨batchAux_length size hS xs.length xs (Nat.le_refl _),
   fun g hg => batchAux_group_le size xs.length xs g hg,
   fun i hi => batchAux_full_groups size xs.length xs i hi,
   batchAux_flatten size hS xs.length xs (Nat.le_refl _)⟩

/-- Witness for C5 at `S = 2` and a three-element sequence. -/
theorem c5_batch_partition_witness :
    1 ≤ 2 ∧
      ((batch 2 ["a", "b", "c"]).length = (["a", "b", "c"].length + 2 - 1) / 2 ∧
       (∀ g ∈ batch 2 ["a", "b", "c"], g.length ≤ 2) ∧
       (∀ i, i + 1 < (batch 2 ["a", "b", "c"]).length →
         ((batch 2 ["a", "b", "c"]).getD i []).length = 2) ∧
       (batch 2 ["a", "b", "c"]).flatten = ["a", "b", "c"]) :=
  ⟨by omega, c5_batch_partition 2 ["a", "b", "c"] (by omega)⟩

/-! ## C4: exact aggregation -/

/-- C4: whenever either dispatch handler answers 200, the reported
delivered count plus the reported failed count equals the number of
envelopes handed to the gateway (no double-counting, no lost count
across batch boundaries). -/
theorem c4_exact_aggregation (store : Store) (env : GatewayEnv) (uid : String)
    (userIds : List String) (d f d2 f2 : Nat) :
    ((sendNotification store env uid).response = .success d f →
      d + f = (sendNotification store env uid).gatewaySends.length) ∧
    ((sendBulkNotification store env userIds).response = .success d2 f2 →
      d2 + f2 = (sendBulkNotification store env userIds).gatewaySends.length) := by
  constructor
  · intro h
    rcases hfind : findOne store uid with _ | doc
    · simp only [sendNotification, hfind] at h
      exact absurd h (by simp)
    · simp only [sendNotification, hfind] at h ⊢
      by_cases h0 : (doc.fcmTokens.length == 0) = true
      · rw [if_pos h0] at h
        exact absurd h (by simp)
      · rw [if_neg h0] at h ⊢
        by_cases hp :
            ((prunedOf env (userMessages doc)).any fun t => !(env.pruneOk t)) = true
        · rw [if_pos hp] at h
          exact absurd h (by simp)
        · rw [if_neg hp] at h ⊢
          have h' : deliveredCount env (userMessages doc) = d ∧
              (userMessages doc).length - deliveredCount env (userMessages doc) = f := by
            simpa using h
          obtain ⟨hd, hf⟩ := h'
          have hle : deliveredCount env (userMessages doc) ≤
              (userMessages doc).length := List.countP_le_length _
          show d + f = (userMessages doc).length
          omega
  · intro h
    by_cases hempty : ((findMany store userIds).length == 0) = true
    · simp only [sendBulkNotification, if_pos hempty] at h
      exact absurd h (by simp)
    · simp only [sendBulkNotification, if_neg hempty] at h ⊢
      have h' : bulkDelivered env (bulkMessages store userIds) = d2 ∧
          (bulkMessages store userIds).length -
            bulkDelivered env (bulkMessages store userIds) = f2 := by
        simpa using h
      obtain ⟨hd, hf⟩ := h'
      have hsends : (bulkLoop env (batch 500 (bulkMessages store userIds))).2.1 =
          bulkMessages store userIds := by
        rw [bulkLoop_sends, batch_flatten 500 (by omega)]
      have hres : (bulkLoop env (batch 500 (bulkMessages store userIds))).1.length =
          (bulkMessages store userIds).length := by
        rw [bulkLoop_results_length, batch_flatten 500 (by omega)]
      have hle : bulkDelivered env (bulkMessages store userIds) ≤
          (bulkMessages store userIds).length := by
        unfold bulkDelivered
        exact le_trans (List.length_filter_le _ _) (le_of_eq hres)
      show d2 + f2 =
        (bulkLoop env (batch 500 (bulkMessages store userIds))).2.1.length
      rw [hsends]
      omega

/-- A concrete store for witnesses: two users, three tokens; `tA`
delivers, `tB` fails transiently, `tC` fails with a permanent code. -/
def sampleStore : Store :=
  [⟨"u1", [⟨"tA", some "phone", 0⟩, ⟨"tB", none, 0⟩]⟩,
   ⟨"u2", [⟨"tC", none, 0⟩]⟩]

/-- The gateway environment matching `sampleStore`'s description; all
prune writes succeed. -/
def sampleEnv : GatewayEnv :=
  ⟨fun t =>
    if t == "tA" then .ok
    else if t == "tB" then .err "messaging/internal-error"
    else .err "messaging/invalid-registration-token",
   fun _ => true⟩

/-- Witness for C4: one delivered and one transient failure on the
single-user path; one delivered, one transient, one permanent on the
bulk path. -/
theorem c4_exact_aggregation_witness :
    ((sendNotification sampleStore sampleEnv "u1").response = .success 1 1 ∧
      1 + 1 = (sendNotification sampleStore sampleEnv "u1").gatewaySends.length) ∧
    ((sendBulkNotification sampleStore sampleEnv ["u1", "u2"]).response =
        .success 1 2 ∧
      1 + 2 =
        (sendBulkNotification sampleStore sampleEnv ["u1", "u2"]).gatewaySends.length) :=
  ⟨⟨by decide,
    (c4_exact_aggregation sampleStore sampleEnv "u1" ["u1", "u2"] 1 1 1 2).1
      (by decide)⟩,
   ⟨by decide,
    (c4_exact_aggregation sampleStore sampleEnv "u1" ["u1", "u2"] 1 1 1 2).2
      (by decide)⟩⟩

/-! ## C1: no false pruning -/

theorem prunedOf_perm (env : GatewayEnv) (msgs : List String) (t : String)
    (h : t ∈ prunedOf env msgs) : isPermMsg env t = true :=
  (List.mem_filter.mp h).2

theorem sendNotification_prune_perm (store : Store) (env : GatewayEnv)
    (uid t : String) (h : t ∈ (sendNotification store env uid).pruneCalls) :
    isPermMsg env t = true := by
  rcases hfind : findOne store uid with _ | doc
  · simp only [sendNotification, hfind] at h
    simp at h
  · simp only [sendNotification, hfind] at h
    by_cases h0 : (doc.fcmTokens.length == 0) = true
    · rw [if_pos h0] at h
      simp at h
    · rw [if_neg h0] at h
      by_cases hp :
          ((prunedOf env (userMessages doc)).any fun t => !(env.pruneOk t)) = true
      · rw [if_pos hp] at h
        exact prunedOf_perm env (userMessages doc) t (by simpa using h)
      · rw [if_neg hp] at h
        exact prunedOf_perm env (userMessages doc) t (by simpa using h)

theorem sendBulkNotification_prune_perm (store : Store) (env : GatewayEnv)
    (userIds : List String) (t : String)
    (h : t ∈ (sendBulkNotification store env userIds).pruneCalls) :
    isPermMsg env t = true := by
  by_cases hempty : ((findMany store userIds).length == 0) = true
  · simp only [sendBulkNotification, if_pos hempty] at h
    simp at h
  · simp only [sendBulkNotification, if_neg hempty] at h
    exact bulkLoop_prunes_perm env _ t h

/-- C1: for every token whose send fails with a gateway error code other
than the two permanent-invalid-token codes (a transient failure), neither
the single-user nor the bulk handler issues a token-removal store write
for that token. -/
theorem c1_no_false_pruning (store : Store) (env : GatewayEnv) (uid : String)
    (userIds : List String) (t c : String)
    (hsend : env.send t = .err c) (hperm : isPermanentInvalid c = false) :
    t ∉ (sendNotification store env uid).pruneCalls ∧
    t ∉ (sendBulkNotification store env userIds).pruneCalls := by
  have hmsg : isPermMsg env t = false := by
    simp only [isPermMsg, hsend, hperm]
  constructor
  · intro hmem
    have hp := sendNotification_prune_perm store env uid t hmem
    rw [hmsg] at hp
    exact Bool.noConfusion hp
  · intro hmem
    have hp := sendBulkNotification_prune_perm store env userIds t hmem
    rw [hmsg] at hp
    exact Bool.noConfusion hp

/-- Witness for C1: `tB` fails with the transient code
`messaging/internal-error` and is pruned by neither handler. -/
theorem c1_no_false_pruning_witness :
    sampleEnv.send "tB" = .err "messaging/internal-error" ∧
    isPermanentInvalid "messaging/internal-error" = false ∧
    ("tB" ∉ (sendNotification sampleStore sampleEnv "u1").pruneCalls ∧
     "tB" ∉ (sendBulkNotification sampleStore sampleEnv ["u1", "u2"]).pruneCalls) :=
  ⟨by decide, by decide,
   c1_no_false_pruning sampleStore sampleEnv "u1" ["u1", "u2"] "tB"
     "messaging/internal-error" (by decide) (by decide)⟩

/-! ## C7: empty-state behaviour of the single-user handler -/

/-- C7: for a user with zero stored tokens — no document at all, or a
document whose `fcmTokens` is empty — the single-user handler answers
404 "No tokens found" and performs zero gateway sends (and zero store
writes). -/
theorem c7_empty_state (store : Store) (env : GatewayEnv) (uid : String)
    (h : ∀ doc, findOne store uid = some doc → doc.fcmTokens = []) :
    sendNotification store env uid = ⟨.notFound, [], []⟩ := by
  rcases hfind : findOne store uid with _ | doc
  · simp [sendNotification, hfind]
  · have hdoc : doc.fcmTokens = [] := h doc hfind
    simp [sendNotification, hfind, hdoc]

/-- Witness for C7: user `u3` has no record in `sampleStore`. -/
theorem c7_empty_state_witness :
    (∀ doc, findOne sampleStore "u3" = some doc → doc.fcmTokens = []) ∧
    sendNotification sampleStore sampleEnv "u3" = ⟨.notFound, [], []⟩ :=
  ⟨fun doc hdoc => by
      have hnone : findOne sampleStore "u3" = none := by decide
      rw [hnone] at hdoc
      exact Option.noConfusion hdoc,
   c7_empty_state sampleStore sampleEnv "u3" (fun doc hdoc => by
      have hnone : findOne sampleStore "u3" = none := by decide
      rw [hnone] at hdoc
      exact Option.noConfusion hdoc)⟩

/-! ## C2: duplicate registration (code bug) -/

/-- C2 (code bug): registering the same `(userId, token)` pair twice with
different `device` values leaves TWO records for that token, not one.
`$addToSet` deduplicates on the whole `{token, device, lastUsed}`
subdocument — and `lastUsed: new Date()` makes the element fresh every
call — so the second registration appends a second entry instead of
updating the first in place. -/
theorem c2_duplicate_registration :
    (registerToken (registerToken [] "u1" "t1" (some "devA") 0)
        "u1" "t1" (some "devB") 1).map
      (fun d => (d.userId, (d.fcmTokens.filter (fun ti => ti.token == "t1")).length))
      = [("u1", 2)] := by decide

/-! ## C10: bulk dispatch over users whose token sets are all empty -/

/-- C10: when the many-user lookup matches at least one document but
every matched document has an empty token set, the bulk handler does not
answer 404: it answers 200 reporting zero delivered and zero failed,
with zero gateway sends and zero prune writes. -/
theorem c10_empty_token_sets (store : Store) (env : GatewayEnv)
    (userIds : List String) (hne : findMany store userIds ≠ [])
    (hempt : ∀ d ∈ findMany store userIds, d.fcmTokens = []) :
    sendBulkNotification store env userIds = ⟨.success 0 0, 1, [], []⟩ := by
  have hmsgs : bulkMessages store userIds = [] := by
    unfold bulkMessages resolvedPairs
    have hflat : ((findMany store userIds).map
        (fun d => d.fcmTokens.map (fun ti => (d.userId, ti.token)))).flatten = [] := by
      rw [List.flatten_eq_nil_iff]
      intro l hl
      rcases List.mem_map.mp hl with ⟨d, hd, rfl⟩
      rw [hempt d hd]
      rfl
    rw [hflat]
    rfl
  unfold sendBulkNotification
  rw [if_neg (by
    simp only [beq_iff_eq, List.length_eq_zero]
    exact hne)]
  rw [hmsgs]
  rfl

/-- A store whose only user has an empty token array. -/
def emptyTokenStore : Store := [⟨"u1", []⟩]

/-- Witness for C10: one matched user, empty token set. -/
theorem c10_empty_token_sets_witness :
    findMany emptyTokenStore ["u1"] ≠ [] ∧
    (∀ d ∈ findMany emptyTokenStore ["u1"], d.fcmTokens = []) ∧
    sendBulkNotification emptyTokenStore sampleEnv ["u1"] =
      ⟨.success 0 0, 1, [], []⟩ :=
  ⟨by decide, by decide,
   c10_empty_token_sets emptyTokenStore sampleEnv ["u1"] (by decide) (by decide)⟩

/-! ## C6: bulk dispatch with an empty userIds list -/

/-- C6 (counterexample): with an empty `userIds` list the bulk handler
does answer "no tokens found", but it still issues the many-user store
lookup — `UserToken.find` runs unconditionally before the emptiness
check, so the lookup count is 1, not 0 as the claim requires. -/
theorem c6_counterexample :
    (sendBulkNotification sampleStore sampleEnv []).response = .notFound ∧
    (sendBulkNotification sampleStore sampleEnv []).manyLookups ≠ 0 := by decide

/-- C6 (amended): for an empty `userIds` list the bulk handler answers
NoTokensFound with zero gateway sends and zero prune writes, but the
many-user token lookup is still issued, exactly once — the `$in: []`
query merely matches no document. -/
theorem c6_empty_user_list (store : Store) (env : GatewayEnv) :
    findMany store [] = [] ∧
    sendBulkNotification store env [] = ⟨.notFound, 1, [], []⟩ := by
  have hfm : findMany store [] = [] := by
    unfold findMany
    simp [List.contains]
  refine ⟨hfm, ?_⟩
  unfold sendBulkNotification
  rw [hfm]
  rfl

/-! ## C3: effect of a failing prune write on the caller's outcome -/

/-- A store with one user owning one token, `tX`. -/
def oneTokenStore : Store := [⟨"u1", [⟨"tX", none, 0⟩]⟩]

/-- Gateway environment where every send fails with a permanent-invalid
code and the store is down for every prune write. -/
def pruneFailEnv : GatewayEnv :=
  ⟨fun _ => .err "messaging/registration-token-not-registered", fun _ => false⟩

/-- Same gateway outcomes as `pruneFailEnv`, but prune writes succeed. -/
def pruneOkEnv : GatewayEnv :=
  ⟨fun _ => .err "messaging/registration-token-not-registered", fun _ => true⟩

/-- C3 (counterexample): a failing prune write does change the caller's
outcome in the single-user handler.  With the prune write succeeding the
call answers 200 with 0 delivered / 1 failed; with the store down during
the prune of the permanently-invalid token it answers 500 — not the
success response with the same counts that the claim requires. -/
theorem c3_counterexample :
    (sendNotification oneTokenStore pruneOkEnv "u1").response = .success 0 1 ∧
    (sendNotification oneTokenStore pruneFailEnv "u1").response = .serverError := by
  decide

/-- The bulk loop reads the environment only through `send`: prune-write
outcomes cannot influence it. -/
theorem bulkLoop_send_congr (e1 e2 : GatewayEnv) (hsend : e1.send = e2.send) :
    ∀ bs : List (List String), bulkLoop e1 bs = bulkLoop e2 bs := by
  have hperm : isPermMsg e1 = isPermMsg e2 :=
    funext (fun t => by unfold isPermMsg; rw [hsend])
  intro bs
  induction bs with
  | nil => rfl
  | cons b rest ih =>
    simp only [bulkLoop, ih, hsend, hperm]

/-- C3 (amended): in the bulk handler a pruning-write failure is indeed
invisible to the caller — the entire result is independent of the prune
outcomes, because `updateMany(...).exec()` is never awaited.  In the
single-user handler, however, the prune is awaited inside the catch
block with no inner try/catch, so when some issued prune write fails the
call escalates to the 500 server error instead of the success response. -/
theorem c3_prune_failure (store : Store) (e1 e2 : GatewayEnv)
    (uid : String) (userIds : List String) (hsend : e1.send = e2.send)
    (hfail : ((sendNotification store e1 uid).pruneCalls.any
      (fun t => !(e1.pruneOk t))) = true) :
    sendBulkNotification store e1 userIds = sendBulkNotification store e2 userIds ∧
    (sendNotification store e1 uid).response = .serverError := by
  obtain ⟨s1, p1⟩ := e1
  obtain ⟨s2, p2⟩ := e2
  change s1 = s2 at hsend
  subst hsend
  constructor
  · unfold sendBulkNotification bulkDelivered
    rw [bulkLoop_send_congr ⟨s1, p1⟩ ⟨s1, p2⟩ rfl]
  · rcases hfind : findOne store uid with _ | doc
    · simp only [sendNotification, hfind] at hfail
      simp at hfail
    · simp only [sendNotification, hfind] at hfail ⊢
      by_cases h0 : (doc.fcmTokens.length == 0) = true
      · rw [if_pos h0] at hfail
        simp at hfail
      · rw [if_neg h0] at hfail ⊢
        split at hfail
        · next h => rw [if_pos h]
        · next h => exact absurd hfail h

/-- Witness for C3 (amended): the permanently-invalid token `tX` is
pruned; with the store down for that prune the single-user call answers
500, while the bulk result is unchanged. -/
theorem c3_prune_failure_witness :
    pruneFailEnv.send = pruneOkEnv.send ∧
    ((sendNotification oneTokenStore pruneFailEnv "u1").pruneCalls.any
      (fun t => !(pruneFailEnv.pruneOk t))) = true ∧
    (sendBulkNotification oneTokenStore pruneFailEnv ["u1"] =
        sendBulkNotification oneTokenStore pruneOkEnv ["u1"] ∧
      (sendNotification oneTokenStore pruneFailEnv "u1").response = .serverError) :=
  ⟨rfl, by decide,
   c3_prune_failure oneTokenStore pruneFailEnv pruneOkEnv "u1" ["u1"] rfl
     (by decide)⟩

/-! ## C8: duplicate userIds do not double-send -/

/-- `$in` is membership: duplicate ids in the query list do not change
which documents the many-user lookup returns. -/
theorem findMany_dedup (store : Store) (userIds : List String) :
    findMany store userIds.dedup = findMany store userIds := by
  unfold findMany
  apply List.filter_congr
  intro d _
  simp [List.mem_dedup]

/-- For a well-formed store (pairwise-distinct `userId`s, pairwise-
distinct tokens within each document) the bulk handler's flattened
envelope list has no repeated `(user, token)` pair. -/
theorem resolvedPairs_nodup (store : Store) (userIds : List String)
    (hstore : (store.map (fun d => d.userId)).Nodup)
    (htok : ∀ d ∈ store, (d.fcmTokens.map (fun ti => ti.token)).Nodup) :
    (resolvedPairs store userIds).Nodup := by
  unfold resolvedPairs
  rw [List.nodup_flatten]
  constructor
  · intro l hl
    rcases List.mem_map.mp hl with ⟨d, hd, rfl⟩
    have h1 : (d.fcmTokens.map (fun ti => ti.token)).Nodup :=
      htok d (List.mem_of_mem_filter hd)
    have h2 : d.fcmTokens.map (fun ti => (d.userId, ti.token)) =
        (d.fcmTokens.map (fun ti => ti.token)).map (fun t => (d.userId, t)) := by
      rw [List.map_map]
      rfl
    rw [h2]
    exact h1.map (fun a b hab => by simpa using hab)
  · have hsub : List.Sublist ((findMany store userIds).map (fun d => d.userId))
        (store.map (fun d => d.userId)) :=
      List.Sublist.map _ (List.filter_sublist store)
    have hpw : (findMany store userIds).Pairwise
        (fun a b => a.userId ≠ b.userId) :=
      List.pairwise_map.mp (hstore.sublist hsub)
    apply List.pairwise_map.mpr
    apply hpw.imp
    intro a b hne x hxa hxb
    rcases List.mem_map.mp hxa with ⟨ta, _, rfl⟩
    rcases List.mem_map.mp hxb with ⟨tb, _, hEq⟩
    exact hne (by simpa using congrArg Prod.fst hEq.symm)

/-- C8: the bulk handler resolves per stored document, so a `userId`
occurring several times in the request list changes nothing — the whole
result (response, sends, prunes) equals the one for the deduplicated
list — and, the store being well-formed, the resolved envelope list
contains each `(user, token)` pair at most once. -/
theorem c8_duplicate_user_dedup (store : Store) (env : GatewayEnv)
    (userIds : List String)
    (hstore : (store.map (fun d => d.userId)).Nodup)
    (htok : ∀ d ∈ store, (d.fcmTokens.map (fun ti => ti.token)).Nodup) :
    sendBulkNotification store env userIds.dedup =
      sendBulkNotification store env userIds ∧
    (resolvedPairs store userIds).Nodup := by
  constructor
  · unfold sendBulkNotification bulkDelivered bulkMessages resolvedPairs
    rw [findMany_dedup]
  · exact resolvedPairs_nodup store userIds hstore htok

/-- Witness for C8: `["u1", "u1"]` resolves and dispatches exactly like
`["u1"]`. -/
theorem c8_duplicate_user_dedup_witness :
    (sampleStore.map (fun d => d.userId)).Nodup ∧
    (∀ d ∈ sampleStore, (d.fcmTokens.map (fun ti => ti.token)).Nodup) ∧
    (sendBulkNotification sampleStore sampleEnv ["u1", "u1"].dedup =
        sendBulkNotification sampleStore sampleEnv ["u1", "u1"] ∧
      (resolvedPairs sampleStore ["u1", "u1"]).Nodup) :=
  ⟨by decide, by decide,
   c8_duplicate_user_dedup sampleStore sampleEnv ["u1", "u1"] (by decide)
     (by decide)⟩

/-! ## C9: batch sequencing and background pruning -/

/-- Message `j` of the flat list is element `j % S` of group `j / S` of
the slicing loop's output (the slice taken at loop offset `S * (j / S)`). -/
theorem batchAux_getD_div_mod (S : Nat) (hS : 1 ≤ S) :
    ∀ (fuel : Nat) (xs : List α), xs.length ≤ fuel →
      ∀ (j : Nat) (d : α),
        ((batchAux S fuel xs).getD (j / S) []).getD (j % S) d = xs.getD j d := by
  intro fuel
  induction fuel with
  | zero =>
    intro xs h j d
    have : xs = [] := List.length_eq_zero.mp (Nat.le_zero.mp h)
    subst this
    rfl
  | succ n ih =>
    intro xs h j d
    match xs with
    | [] => rfl
    | x :: l =>
      rw [batchAux]
      rcases Nat.lt_or_ge j S with hj | hj
      · rw [Nat.div_eq_of_lt hj, Nat.mod_eq_of_lt hj, List.getD_cons_zero]
        rw [List.getD_eq_getElem?_getD, List.getD_eq_getElem?_getD,
          List.getElem?_take, if_pos hj]
      · have hdiv : j / S = (j - S) / S + 1 := Nat.div_eq_sub_div (by omega) hj
        have hmod : j % S = (j - S) % S := Nat.mod_eq_sub_mod hj
        rw [hdiv, hmod, List.getD_cons_succ]
        rw [ih ((x :: l).drop S) (by
          rw [List.length_drop]
          simp only [List.length_cons] at h ⊢
          omega) (j - S) d]
        rw [List.getD_eq_getElem?_getD, List.getD_eq_getElem?_getD,
          List.getElem?_drop, show S + (j - S) = j by omega]

/-- Timestamps of the events of one bulk dispatch over messages indexed
`0 .. N-1`: when each gateway send starts and settles, and when the prune
write fired by a permanently-invalid send starts and completes. -/
structure Sched where
  sendStart : Nat → Nat
  sendEnd : Nat → Nat
  pruneStart : Nat → Nat
  pruneEnd : Nat → Nat

/-- The orderings the bulk handler's code enforces on an execution with
batch size `S`, `N` messages, and `perm j` telling whether message `j`'s
send fails with a permanently-invalid code.  A send settles no earlier
than it starts; the `await Promise.all` closing each loop iteration
orders every send of an earlier slice (`j / S < k / S`) strictly before
every send of a later slice; a prune write is fired inside its send's
`.catch`, hence starts after that send settles and completes no earlier
than it starts.  Nothing else constrains prune completion: the
`updateMany(...).exec()` call is not awaited. -/
def ValidSched (S N : Nat) (perm : Nat → Bool) (sc : Sched) : Prop :=
  (∀ j, j < N → sc.sendStart j ≤ sc.sendEnd j) ∧
  (∀ j k, j < N → k < N → j / S < k / S → sc.sendEnd j < sc.sendStart k) ∧
  (∀ j, j < N → perm j = true →
    sc.sendEnd j < sc.pruneStart j ∧ sc.pruneStart j ≤ sc.pruneEnd j)

/-- The ordering the claim asserts: in every admissible execution, every
prune write fired in one batch completes before any send of a later
batch starts. -/
def prunesBlockLaterBatches (S N : Nat) (perm : Nat → Bool) : Prop :=
  ∀ sc : Sched, ValidSched S N perm sc →
    ∀ j k, j < N → k < N → perm j = true → j / S < k / S →
      sc.pruneEnd j < sc.sendStart k

/-- One user with 501 tokens: the permanently-invalid `bad` followed by
500 copies of the deliverable `good`, so the bulk handler produces two
batches (500 and 1). -/
def bigStore : Store :=
  [⟨"u1", ⟨"bad", none, 0⟩ :: List.replicate 500 ⟨"good", none, 0⟩⟩]

/-- Gateway for `bigStore`: `bad` is permanently invalid, everything
else delivers; prune writes succeed. -/
def bigEnv : GatewayEnv :=
  ⟨fun t => if t == "bad" then .err "messaging/invalid-registration-token" else .ok,
   fun _ => true⟩

set_option maxRecDepth 16384 in
/-- C9 (counterexample): the code admits an execution of the concrete
two-batch dispatch (`bigStore`, 501 messages) in which the prune write
fired for message 0 (batch 0) completes at time 1000, long after the
sends of batch 1 started at time 10 — so the claim that batch N's
pruning side-effects complete before batch N+1's sends begin is false. -/
theorem c9_counterexample :
    ¬ prunesBlockLaterBatches 500 (bulkMessages bigStore ["u1"]).length
        (fun j => isPermMsg bigEnv ((bulkMessages bigStore ["u1"]).getD j "")) := by
  intro hclaim
  have hlen : (bulkMessages bigStore ["u1"]).length = 501 := by decide
  rw [hlen] at hclaim
  have hperm0 : isPermMsg bigEnv ((bulkMessages bigStore ["u1"]).getD 0 "") = true := by
    decide
  have hv : ValidSched 500 501
      (fun j => isPermMsg bigEnv ((bulkMessages bigStore ["u1"]).getD j ""))
      ⟨fun j => 10 * (j / 500), fun j => 10 * (j / 500) + 1,
       fun j => 10 * (j / 500) + 2, fun _ => 1000⟩ := by
    dsimp only [ValidSched]
    refine ⟨?_, ?_, ?_⟩
    · intro j hj
      omega
    · intro j k hj hk hlt
      omega
    · intro j hj hp
      exact ⟨by omega, by omega⟩
  unfold prunesBlockLaterBatches at hclaim
  have hcontra := hclaim _ hv 0 500 (by omega) (by omega) hperm0 (by omega)
  have hc2 : (1000 : Nat) < 10 * (500 / 500) := hcontra
  omega

/-- C9 (amended): batch sequencing does hold for the sends — message `j`
is element `j % S` of batch `j / S` of the slicing loop, and in every
execution the code admits, each send of an earlier batch settles before
any send of a later batch starts (within one batch no mutual order is
imposed).  The pruning side-effects, however, are fired without being
awaited: for every time bound `T` there is an admissible execution of
the same dispatch in which every fired prune write completes after `T`,
in particular after later batches' sends have begun. -/
theorem c9_sequential_batches (S : Nat) (msgs : List String)
    (perm : Nat → Bool) (sc : Sched) (T : Nat) (hS : 1 ≤ S)
    (hv : ValidSched S msgs.length perm sc) :
    (∀ j (d : String), ((batch S msgs).getD (j / S) []).getD (j % S) d =
      msgs.getD j d) ∧
    (∀ j k, j < msgs.length → k < msgs.length → j / S < k / S →
      sc.sendEnd j < sc.sendStart k) ∧
    ∃ sc2 : Sched, ValidSched S msgs.length perm sc2 ∧
      ∀ j, j < msgs.length → T ≤ sc2.pruneEnd j := by
  refine ⟨fun j d => batchAux_getD_div_mod S hS msgs.length msgs
      (Nat.le_refl _) j d,
    hv.2.1,
    ⟨fun j => 2 * (j / S), fun j => 2 * (j / S) + 1,
     fun j => 2 * (j / S) + 2, fun j => 2 * (j / S) + 2 + T⟩,
    ⟨?_, ?_, ?_⟩, ?_⟩
  · intro j hj
    dsimp only
    generalize j / S = a
    omega
  · intro j k hj hk hlt
    dsimp only
    revert hlt
    generalize j / S = a
    generalize k / S = b
    intro hlt
    omega
  · intro j hj hp
    dsimp only
    constructor
    · generalize j / S = a
      omega
    · generalize j / S = a
      omega
  · intro j hj
    dsimp only
    generalize j / S = a
    omega

/-- A schedule for a two-message, batch-size-one dispatch: message `j`'s
send runs during `[3j, 3j+1]`, its prune during `[3j+2, 3j+2]`. -/
def sampleSched : Sched :=
  ⟨fun j => 3 * j, fun j => 3 * j + 1, fun j => 3 * j + 2, fun j => 3 * j + 2⟩

/-- Witness for C9 (amended) at `S = 1`, two messages, both permanently
invalid, bound `T = 7`. -/
theorem c9_sequential_batches_witness :
    1 ≤ 1 ∧
    ValidSched 1 (["m0", "m1"] : List String).length (fun _ => true) sampleSched ∧
    ((∀ j (d : String),
        ((batch 1 (["m0", "m1"] : List String)).getD (j / 1) []).getD (j % 1) d =
          (["m0", "m1"] : List String).getD j d) ∧
     (∀ j k, j < (["m0", "m1"] : List String).length →
        k < (["m0", "m1"] : List String).length → j / 1 < k / 1 →
        sampleSched.sendEnd j < sampleSched.sendStart k) ∧
     ∃ sc2 : Sched,
        ValidSched 1 (["m0", "m1"] : List String).length (fun _ => true) sc2 ∧
        ∀ j, j < (["m0", "m1"] : List String).length → 7 ≤ sc2.pruneEnd j) :=
  have hv : ValidSched 1 (["m0", "m1"] : List String).length
      (fun _ => true) sampleSched := by
    dsimp only [ValidSched, sampleSched]
    exact ⟨fun j hj => by omega,
      fun j k hj hk hlt => by omega,
      fun j hj hp => ⟨by omega, by omega⟩⟩
  ⟨by omega, hv,
   c9_sequential_batches 1 ["m0", "m1"] (fun _ => true) sampleSched 7
     (by omega) hv⟩
